import Mathlib

/-!
# Verification of the project orchestrator (`src/main/project.ts`)

This file gives a shallow embedding of the parts of the `Project` class of
`src/main/project.ts` that the specification's claims are about, and settles
each claim against the embedding.

Modelling conventions:
* JavaScript numbers are idealized as `ℚ` (exact rationals); token counts and
  costs never need floating-point-specific behaviour in the claims below.
* JavaScript strings are `String` where only equational reasoning is needed,
  and `List Char` (`Str`) in the input-history model, where inductive reasoning
  over the characters is required.
* `undefined` / `null` become `Option`; JavaScript truthiness of a number
  (`undefined`, `0` falsy) and of a string (`undefined`, `""` falsy) is made
  explicit at each use site.
* Stateful methods become explicit state-passing functions; observable actions
  (messages routed to connectors, UI events) are returned as event lists.
* Promise resolution is modelled by recording which stored resolver callbacks
  are invoked and with which values.
-/

namespace AiderDesk

/-! ## Cost accounting (`Project.updateTotalCosts`, project.ts lines 899-906)

`UsageReportData` lives in `@common/types` (outside `src/`); its fields are
modelled exactly as they are accessed by `project.ts`: two mandatory token
counters and a message cost, plus two optional running totals.  JavaScript
number truthiness (`if (usageReport.mcpAgentTotalCost)`) treats both an absent
field and a `0` value as falsy. -/

structure UsageReportData where
  sentTokens : ℚ
  receivedTokens : ℚ
  messageCost : ℚ
  mcpAgentTotalCost : Option ℚ
  aiderTotalCost : Option ℚ
deriving DecidableEq

/-- JavaScript truthiness of an optional number: `undefined` and `0` are falsy. -/
def jsNumTruthy (o : Option ℚ) : Bool :=
  match o with
  | some v => v != 0
  | none => false

/-- The two running totals held on the `Project` instance
(`mcpAgentTotalCost`, `aiderTotalCost`). -/
structure CostTotals where
  mcpAgentTotalCost : ℚ
  aiderTotalCost : ℚ
deriving DecidableEq

/-- Model of `Project.updateTotalCosts` (project.ts lines 899-906): each total is
overwritten by the report's value when that value is truthy, otherwise kept. -/
def updateTotalCosts (usageReport : UsageReportData) (s : CostTotals) : CostTotals :=
  let s1 := if jsNumTruthy usageReport.mcpAgentTotalCost then
    { s with mcpAgentTotalCost := usageReport.mcpAgentTotalCost.getD 0 } else s
  if jsNumTruthy usageReport.aiderTotalCost then
    { s1 with aiderTotalCost := usageReport.aiderTotalCost.getD 0 } else s1

/-- Spec-side reading of "the report carries a non-empty value for that
total": the field is present and non-zero.  (Stated from the spec's words, to
be compared with the code's truthiness test.) -/
def carriesNonEmptyValue (o : Option ℚ) : Bool :=
  match o with
  | some v => v != 0
  | none => false

/-! ## `Number.prototype.toFixed` and the finished-response branch
(`Project.processResponseMessage`, project.ts lines 475-532)

`toFixed(f)` per ECMA-262: for non-negative `x`, the output integer is the `n`
minimizing `|n / 10^f - x|` with ties taken upward, i.e. `⌊x·10^f + 1/2⌋`;
a negative `x` is negated first and a sign is prepended.  The computation is
expressed over `x.num`/`x.den` so that it evaluates by kernel reduction. -/

/-- Render a non-negative integer `n` as a decimal string with the last `f`
digits behind a decimal point (the final formatting step of `toFixed`). -/
def fixedDigits (n : Nat) (f : Nat) : String :=
  let ds := (Nat.repr n).data
  let ds := List.replicate (f + 1 - ds.length) '0' ++ ds
  if f = 0 then String.mk ds
  else String.mk (ds.take (ds.length - f) ++ '.' :: ds.drop (ds.length - f))

/-- Computes `⌊x·10^f + 1/2⌋` for `x ≥ 0`, computed on numerator and denominator. -/
def scaledHalfUp (x : ℚ) (f : Nat) : Nat :=
  ((2 * x.num * (10 : Int) ^ f + (x.den : Int)) / (2 * (x.den : Int))).toNat

/-- JavaScript's `x.toFixed(f)` (idealized to exact rationals). -/
def jsToFixed (x : ℚ) (f : Nat) : String :=
  if x.num < 0 then "-" ++ fixedDigits (scaledHalfUp (-x) f) f
  else fixedDigits (scaledHalfUp x f) f

/-- Inbound `ResponseMessage` (from `./messages`), with the fields
`processResponseMessage` reads.  The `usageReport` field may arrive as free
text in the source (then run through `parseUsageReport` from `@common/utils`,
which is outside `src/`); it is modelled here in its already-structured form.
Message ids are modelled as `Nat` (uuid strings are never empty, so the
JavaScript `message.id || currentResponseMessageId` fallback is `Option.getD`). -/
structure ResponseMessage where
  id : Option Nat
  content : String
  reflectedMessage : Option String
  finished : Bool
  editedFiles : Option (List String)
  commitHash : Option String
  commitMessage : Option String
  diff : Option String
  usageReport : Option UsageReportData

/-- The `ResponseCompletedData` payload assembled for a finished message. -/
structure ResponseCompletedData where
  messageId : Nat
  content : String
  reflectedMessage : Option String
  editedFiles : Option (List String)
  commitHash : Option String
  commitMessage : Option String
  diff : Option String
  usageReport : Option UsageReportData

/-- The `ResponseChunkData` payload forwarded for an unfinished chunk. -/
structure ResponseChunkData where
  messageId : Nat
  chunk : String
  reflectedMessage : Option String

/-- What `processResponseMessage` forwards: a streamed chunk or a completed
response. -/
inductive RespOutcome
  | chunk (data : ResponseChunkData)
  | completed (data : ResponseCompletedData)

/-- The commit message carried by a `completed` outcome. -/
def RespOutcome.commitMessageOf : RespOutcome → Option String
  | .chunk _ => none
  | .completed d => d.commitMessage

/-- The slice of `Project` state read and written by `processResponseMessage`:
the lazily allocated response-message id, the running cost totals, and the
responses collected for the current prompt.  (The `closeCommandOutput` call and
the UI `send` side effects are not part of this state slice.) -/
structure RespState where
  currentResponseMessageId : Option Nat
  costs : CostTotals
  currentPromptResponses : List ResponseCompletedData

/-- Model of `Project.processResponseMessage` (project.ts lines 475-532).  `fresh` is
the uuid generated when no response-message id is allocated yet.  For a
finished message: the usage report (when present) updates the cost totals; a
truthy (present, non-empty) commit message with a present usage report gets the
cost summary appended via the template
`` ` i${inputTokensK}k o${outputTokensK}k $${cost}` ``; the completed data is
collected into `currentPromptResponses` and the response-message id cleared. -/
def processResponseMessage (fresh : Nat) (message : ResponseMessage) (s : RespState) :
    RespState × RespOutcome :=
  let currentId := s.currentResponseMessageId.getD fresh
  let s := { s with currentResponseMessageId := some currentId }
  if message.finished = false then
    (s, .chunk ⟨message.id.getD currentId, message.content, message.reflectedMessage⟩)
  else
    let usageReport := message.usageReport
    let s := match usageReport with
      | some u => { s with costs := updateTotalCosts u s.costs }
      | none => s
    let commitMessage : Option String :=
      match message.commitMessage, usageReport with
      | some c, some u =>
        if c = "" then some c
        else some (c ++ " i" ++ jsToFixed (u.sentTokens / 1000) 1 ++ "k o" ++
          jsToFixed (u.receivedTokens / 1000) 1 ++ "k $" ++ jsToFixed u.messageCost 3)
      | c, _ => c
    let data : ResponseCompletedData :=
      ⟨message.id.getD currentId, message.content, message.reflectedMessage,
        message.editedFiles, message.commitHash, commitMessage, message.diff, usageReport⟩
    ({ s with
        currentResponseMessageId := none
        currentPromptResponses := s.currentPromptResponses ++ [data] },
      .completed data)

/-- The cost summary suffix as the spec describes it:
`i<sentK>k o<receivedK>k $<cost>`, token counts in thousands with one decimal,
cost with three decimals, preceded by a space. -/
def specCostSuffix (u : UsageReportData) : String :=
  " i" ++ jsToFixed (u.sentTokens / 1000) 1 ++ "k o" ++
    jsToFixed (u.receivedTokens / 1000) 1 ++ "k $" ++ jsToFixed u.messageCost 3

/-! ## Question/answer protocol
(`Project.getQuestionKey` lines 538-540, `Project.answerQuestion` lines
542-576, `Project.askQuestion` lines 694-723)

Answers are `Bool` (`true` = `'y'`, `false` = `'n'`).  Each `askQuestion` call
carries a caller id `callId`; `currentQuestionPromiseResolve` stores the id of
the call whose promise resolver is currently held, and `resolvedAnswers` logs
every resolver invocation `(callId, yesNoAnswer, userInput)`. -/

structure QuestionData where
  key : Option String
  text : String
  subject : Option String
  internal : Bool
deriving DecidableEq

/-- Model of `Project.getQuestionKey`: `question.key || `${question.text}_${question.subject || ''}``.
JavaScript `||` falls through on an absent or empty string. -/
def getQuestionKey (question : QuestionData) : String :=
  let fallback := question.text ++ "_" ++ question.subject.getD ""
  match question.key with
  | some k => if k = "" then fallback else k
  | none => fallback

/-- JavaScript `answer.toLowerCase()` (ASCII case mapping, character by
character; the protocol only ever compares the result against the ASCII
letters `"a"`, `"y"` and `"d"`). -/
def jsToLower (s : String) : String :=
  String.mk (s.data.map Char.toLower)

structure QuestionState where
  currentQuestion : Option QuestionData
  currentQuestionPromiseResolve : Option Nat
  questionAnswers : List (String × Bool)
  resolvedAnswers : List (Nat × Bool × Option String)
deriving DecidableEq

/-- Observable actions of the question protocol: routing a yes/no answer to the
`answer-question` connectors, or emitting the `ask-question` UI event. -/
inductive QuestionEvent
  | routeAnswer (yes : Bool)
  | askQuestionUiEvent (question : QuestionData)
deriving DecidableEq

/-- Model of `Project.answerQuestion` (project.ts lines 542-576).  Returns the updated
state, the boolean result (whether a stored promise resolver was invoked), and
the routed events. -/
def answerQuestion (answer : String) (userInput : Option String) (s : QuestionState) :
    QuestionState × Bool × List QuestionEvent :=
  match s.currentQuestion with
  | none => (s, false, [])
  | some currentQuestion =>
    let normalized := jsToLower answer
    let yesNoAnswer : Bool := normalized == "a" || normalized == "y"
    let s := if normalized == "d" || normalized == "a" then
        { s with questionAnswers := (getQuestionKey currentQuestion, yesNoAnswer) :: s.questionAnswers }
      else s
    let events := if currentQuestion.internal then [] else [QuestionEvent.routeAnswer yesNoAnswer]
    let s := { s with currentQuestion := none }
    match s.currentQuestionPromiseResolve with
    | some callId =>
      ({ s with
          resolvedAnswers := s.resolvedAnswers ++ [(callId, yesNoAnswer, userInput)]
          currentQuestionPromiseResolve := none }, true, events)
    | none => (s, false, events)

/-- Result of `askQuestion`: `immediate a` models `Promise.resolve([a, undefined])`
(resolved within the same call stack), `pending` models suspending on a stored
resolver. -/
inductive AskOutcome
  | immediate (storedAnswer : Bool)
  | pending
deriving DecidableEq

/-- Model of `Project.askQuestion` (project.ts lines 694-723).  The current question is
set unconditionally; a remembered answer for the question's key short-circuits
(auto-answering through `answerQuestion` unless the question is internal);
otherwise the caller's resolver is stored and the `ask-question` UI event is
emitted. -/
def askQuestion (callId : Nat) (questionData : QuestionData) (s : QuestionState) :
    QuestionState × AskOutcome × List QuestionEvent :=
  let s := { s with currentQuestion := some questionData }
  match s.questionAnswers.lookup (getQuestionKey questionData) with
  | some storedAnswer =>
    if questionData.internal then
      (s, .immediate storedAnswer, [])
    else
      let r := answerQuestion (if storedAnswer then "y" else "n") none s
      (r.1, .immediate storedAnswer, r.2.2)
  | none =>
    ({ s with currentQuestionPromiseResolve := some callId }, .pending,
      [QuestionEvent.askQuestionUiEvent questionData])

/-! ## Stopping the worker (`Project.killAider` lines 337-370, `Project.close`
lines 296-300, and the process `'close'` handler at lines 285-287)

`treeKill` is assumed to succeed (its failure path rethrows without touching
any of the fields below, and is not modelled).  `sessionManager.clearMessages`
and the UI `send` calls are outside this state slice.  The second component of
the result records the promise resolutions performed: each stored
`runPromptResolves` entry is invoked with the empty response list. -/

structure StopState where
  processAlive : Bool
  currentCommand : Option String
  currentQuestion : Option QuestionData
  currentResponseMessageId : Option Nat
  currentPromptId : Option Nat
  currentPromptResponses : List Nat
  runPromptResolves : List Nat
deriving DecidableEq

/-- Model of `Project.killAider` (success path): kills the process tree, clears the
transient per-run state, and invokes every stored prompt resolver with `[]`. -/
def killAider (s : StopState) : StopState × List (Nat × List Nat) :=
  if s.processAlive then
    ({ processAlive := false
       currentCommand := none
       currentQuestion := none
       currentResponseMessageId := none
       currentPromptId := none
       currentPromptResponses := []
       runPromptResolves := [] },
     s.runPromptResolves.map (fun w => (w, ([] : List Nat))))
  else (s, [])

/-- Model of `Project.close`: sends the `clear-project` UI event, then `killAider`. -/
def closeProject (s : StopState) : StopState × List (Nat × List Nat) :=
  killAider s

/-- The handler installed by `runAider` for the child process `'close'` event
(project.ts lines 285-287): it only logs the exit code — no state is touched
and no stored resolver is invoked. -/
def onProcessExit (s : StopState) : StopState × List (Nat × List Nat) :=
  (s, [])

/-! ## File search (`Project.getAddableFiles`, project.ts lines 763-780)

The JavaScript regular-expression engine is abstracted as a `compileRegex`
parameter: `new RegExp(pattern, 'i')` either yields a match predicate or
throws, which the source catches (logging and skipping the filter). -/

/-- Model of `Project.getAddableFiles`: tracked files minus context files, optionally
filtered by a search pattern.  `if (searchRegex)` is string truthiness, so an
absent or empty pattern skips filtering; an invalid pattern (compile failure,
caught in the source) also leaves the list unfiltered. -/
def getAddableFiles (allTrackedFiles : List String) (contextFilePaths : List String)
    (searchRegex : Option String) (compileRegex : String → Option (String → Bool)) :
    List String :=
  let files := allTrackedFiles.filter (fun file => !(contextFilePaths.contains file))
  match searchRegex with
  | none => files
  | some pattern =>
    if pattern = "" then files
    else
      match compileRegex pattern with
      | some test => files.filter test
      | none => files

/-! ## Prompt scheduling (`Project.runPrompt` lines 376-430, `Project.sendPrompt`
lines 432-445, `Project.promptFinished` lines 451-473)

An interleaving model of concurrent `runPrompt` calls on one project.  Each
caller (task) runs `runPrompt` in non-agent mode in runs where the worker asks
no questions (so the `currentQuestion` guard at the top of `runPrompt` is a
no-op and is omitted).  The async control flow suspends at three points, giving
the task phases below; everything between two suspension points runs atomically,
exactly as in the single-threaded event loop:

* `entry`: about to run the synchronous prefix of `runPrompt`; if
  `currentPromptId` is set the task pushes a wake-up resolver
  (`runPromptResolves.push(() => resolve())`) and suspends (`waitingTurn`),
  otherwise it reaches `await this.addToInputHistory(prompt)` (`historyWait`).
* `historyWait`: the history append completes; the task then synchronously runs
  `addUserMessage`/`addLogMessage` (UI-only, elided) and the synchronous body of
  `sendPrompt`: reset `currentPromptResponses`, allocate a fresh prompt id,
  route the prompt command to the `prompt` connectors, push its completion
  resolver, and suspend (`responseWait`).
* `workerFinishes`: the worker signals turn completion and the connector calls
  `promptFinished()`: the collected responses are captured, the prompt id
  cleared, and every stored resolver is drained FIFO — wake-up resolvers move
  their task to `historyWait` (the task resumes and immediately awaits the
  history append), completion resolvers deliver the captured responses. -/

inductive PromptWaiter
  | wake (task : Nat)
  | complete (task : Nat)
deriving DecidableEq

inductive TaskPhase
  | entry
  | waitingTurn
  | historyWait
  | responseWait
  | done (responses : List Nat)
deriving DecidableEq

structure SchedState where
  currentPromptId : Option Nat
  currentPromptResponses : List Nat
  runPromptResolves : List PromptWaiter
  nextPromptId : Nat
  tasks : List TaskPhase
deriving DecidableEq

/-- Observable connector traffic of the prompt state machine: a prompt command
routed to the `prompt` connectors (with its unit id), and the worker's
turn-completion signal that runs `promptFinished`. -/
inductive SchedEvent
  | routePrompt (promptId : Nat)
  | promptFinishedSignal
deriving DecidableEq

/-- A scheduling decision: which ready task (or the worker) runs next. -/
inductive SchedChoice
  | enter (task : Nat)
  | resumeHistory (task : Nat)
  | workerFinishes
deriving DecidableEq

def SchedState.setTask (s : SchedState) (t : Nat) (p : TaskPhase) : SchedState :=
  { s with tasks := s.tasks.set t p }

/-- One interleaving step; `none` when the chosen task is not at the matching
suspension point. -/
def schedStep (s : SchedState) : SchedChoice → Option (SchedState × List SchedEvent)
  | .enter t =>
    match s.tasks.get? t with
    | some .entry =>
      match s.currentPromptId with
      | some _ =>
        some (({ s with runPromptResolves := s.runPromptResolves ++ [PromptWaiter.wake t] }).setTask t
          TaskPhase.waitingTurn, [])
      | none => some (s.setTask t .historyWait, [])
    | _ => none
  | .resumeHistory t =>
    match s.tasks.get? t with
    | some .historyWait =>
      let pid := s.nextPromptId
      some (({ s with
        currentPromptId := some pid
        currentPromptResponses := []
        nextPromptId := pid + 1
        runPromptResolves := s.runPromptResolves ++ [PromptWaiter.complete t] }).setTask t
          TaskPhase.responseWait,
        [.routePrompt pid])
    | _ => none
  | .workerFinishes =>
    let responses := s.currentPromptResponses
    let tasks := s.runPromptResolves.foldl
      (fun ts w => match w with
        | .wake t => ts.set t .historyWait
        | .complete t => ts.set t (.done responses))
      s.tasks
    some ({ currentPromptId := none
            currentPromptResponses := []
            runPromptResolves := []
            nextPromptId := s.nextPromptId
            tasks := tasks }, [.promptFinishedSignal])

/-- Run a schedule, accumulating the emitted events; `none` if any step is
invalid. -/
def runSched : List SchedChoice → SchedState → Option (SchedState × List SchedEvent)
  | [], s => some (s, [])
  | c :: cs, s =>
    match schedStep s c with
    | some (s', evs) =>
      match runSched cs s' with
      | some (s'', evs') => some (s'', evs ++ evs')
      | none => none
    | none => none

/-- Helper `singleFlightAux active evs`: scans the event list; `active` records whether
a routed prompt command has not yet been followed by `promptFinished`. -/
def singleFlightAux : Bool → List SchedEvent → Bool
  | _, [] => true
  | active, e :: es =>
    match e with
    | .routePrompt _ => if active then false else singleFlightAux true es
    | .promptFinishedSignal => singleFlightAux false es

/-- The claimed single-flight property of a connector-traffic trace: no prompt
command is routed while a previously routed prompt is still active (i.e. before
the next `promptFinished`). -/
def singleFlight (events : List SchedEvent) : Bool :=
  singleFlightAux false events

/-- Initial state for three concurrent `runPrompt` callers on one idle project. -/
def initThreeCallers : SchedState :=
  ⟨none, [], [], 0, [.entry, .entry, .entry]⟩

/-- The schedule exhibiting the violation: caller 0 becomes active, callers 1
and 2 queue behind it, the worker finishes caller 0's turn (releasing both
queued callers at once), then callers 1 and 2 each complete their history
append and route their prompt commands back to back. -/
def overlapSchedule : List SchedChoice :=
  [.enter 0, .resumeHistory 0, .enter 1, .enter 2, .workerFinishes,
   .resumeHistory 1, .resumeHistory 2]

/-! ## Input history (`Project.addToInputHistory` lines 670-683,
`Project.loadInputHistory` lines 634-668)

Strings are `List Char` here so the round-trip can be proved by induction.
`addToInputHistory` appends `"\n# " + timestamp + "\n+" + message.replace(/\n/g, "\n+") + "\n"`
to the history file; `loadInputHistory` splits the file on `'\n'`, starts a new
entry at each `"# "` header line (pushing the previous entry trimmed), appends
`line.substring(1) + "\n"` for each `"+"` line, pushes a trailing entry, and
returns the list reversed. -/

abbrev Str := List Char

/-- Conses a character onto the first piece of a split (the non-newline case of
`String.prototype.split`). -/
def consHead (c : Char) : List Str → List Str
  | [] => [[c]]
  | l :: ls => (c :: l) :: ls

/-- JavaScript `content.split('\n')` on character lists. -/
def jsSplitNl : Str → List Str
  | [] => [[]]
  | c :: cs => if c = '\n' then [] :: jsSplitNl cs else consHead c (jsSplitNl cs)

/-- The whitespace class trimmed at both ends by `String.prototype.trim`,
per ECMA-262 `TrimString`: *WhiteSpace* (TAB U+0009, VT U+000B, FF U+000C,
ZWNBSP U+FEFF, and every Space_Separator code point — SP U+0020, NBSP U+00A0,
U+1680, U+2000..U+200A, U+202F, U+205F, U+3000) together with
*LineTerminator* (LF U+000A, CR U+000D, LS U+2028, PS U+2029). -/
def isWsChar (c : Char) : Bool :=
  let n := c.toNat
  n = 0x9 || n = 0xA || n = 0xB || n = 0xC || n = 0xD || n = 0x20 ||
    n = 0xA0 || n = 0x1680 || (0x2000 ≤ n && n ≤ 0x200A) || n = 0x2028 ||
    n = 0x2029 || n = 0x202F || n = 0x205F || n = 0x3000 || n = 0xFEFF

/-- JavaScript `s.trim()`: strip leading and trailing whitespace. -/
def jsTrim (s : Str) : Str :=
  ((s.dropWhile isWsChar).reverse.dropWhile isWsChar).reverse

/-- JavaScript `message.replace(/\n/g, '\n+')`. -/
def jsReplaceNl : Str → Str
  | [] => []
  | c :: cs => if c = '\n' then '\n' :: '+' :: jsReplaceNl cs else c :: jsReplaceNl cs

/-- The text `addToInputHistory` appends for one prompt:
`"\n# " ++ timestamp ++ "\n+" ++ jsReplaceNl message ++ "\n"`. -/
def formatEntry (timestamp message : Str) : Str :=
  '\n' :: '#' :: ' ' :: (timestamp ++ '\n' :: '+' :: (jsReplaceNl message ++ ['\n']))

/-- One `addToInputHistory` call: append the formatted entry to the file
content (`fs.appendFile`). -/
def addToInputHistory (content : Str) (timestamp message : Str) : Str :=
  content ++ formatEntry timestamp message

/-- A sequence of `addToInputHistory` calls starting from an empty history
file; each entry is a `(timestamp, message)` pair, in chronological order. -/
def writeHistory (entries : List (Str × Str)) : Str :=
  entries.foldl (fun content e => addToInputHistory content e.1 e.2) []

/-- The loop body of `loadInputHistory`: state is `(history, currentInput)`. -/
def parseStep (acc : List Str × Str) (line : Str) : List Str × Str :=
  if ['#', ' '].isPrefixOf line then
    if acc.2 ≠ [] then (acc.1 ++ [jsTrim acc.2], []) else acc
  else if ['+'].isPrefixOf line then (acc.1, acc.2 ++ line.tail ++ ['\n'])
  else acc

/-- Push the final `currentInput` (if non-empty) after the line loop. -/
def finishParse (acc : List Str × Str) : List Str :=
  if acc.2 ≠ [] then acc.1 ++ [jsTrim acc.2] else acc.1

/-- Model of `Project.loadInputHistory` applied to already-read file content (the I/O
error path returns `[]` and is not modelled; `if (!content) return []` is the
string-truthiness check on the read content). -/
def loadInputHistory (content : Str) : List Str :=
  if content = [] then []
  else (finishParse ((jsSplitNl content).foldl parseStep ([], []))).reverse

/-- The lines a single history entry contributes to the split file content: a
blank line (from the `"\n"` separating entries), the `"# "` header, and the
`"+`-prefixed message lines. -/
def entryLines (timestamp message : Str) : List Str :=
  [] :: ('#' :: ' ' :: timestamp) :: (jsSplitNl message).map (fun l => '+' :: l)

/-- The character content reconstructed from a list of `"+"`-prefixed lines:
each line contributes `line ++ "\n"`. -/
def plusBody : List Str → Str
  | [] => []
  | l :: ls => l ++ '\n' :: plusBody ls

/-- The concatenated file text of a list of history entries (recursive form of
`writeHistory`, convenient for induction). -/
def entriesText : List (Str × Str) → Str
  | [] => []
  | e :: es => formatEntry e.1 e.2 ++ entriesText es

end AiderDesk

namespace AiderDesk

/-! ## Cost accounting: claims C5 and C10 -/

/-- C5. Cost accounting replaces, never sums: for every incoming usage report,
each of the two running totals (agent total and aider total) is set to the
report's value exactly when the report carries a non-empty value for that
total, and a report carrying a value for only one total leaves the other
total's prior value unchanged. -/
theorem updateTotalCosts_replaces_never_sums (r : UsageReportData) (s : CostTotals) :
    updateTotalCosts r s =
      ⟨if carriesNonEmptyValue r.mcpAgentTotalCost then r.mcpAgentTotalCost.getD 0
        else s.mcpAgentTotalCost,
       if carriesNonEmptyValue r.aiderTotalCost then r.aiderTotalCost.getD 0
        else s.aiderTotalCost⟩ := by
  rcases s with ⟨m, a⟩
  rcases r with ⟨st, rt, mc, om, oa⟩
  simp only [updateTotalCosts, carriesNonEmptyValue, jsNumTruthy]
  rcases om with _ | vm <;> rcases oa with _ | va
  · simp
  · by_cases hva : va = 0 <;> simp [hva]
  · by_cases hvm : vm = 0 <;> simp [hvm]
  · by_cases hvm : vm = 0 <;> by_cases hva : va = 0 <;> simp [hvm, hva]

/-- C10 (implicit). An incoming usage report whose total for a category equals
exactly `0` (or is absent) leaves that category's running total unchanged — a
zero value is treated the same as an empty value and never resets a previously
recorded non-zero total. -/
theorem zero_or_absent_total_preserved (r : UsageReportData) (s : CostTotals) :
    (r.mcpAgentTotalCost = none ∨ r.mcpAgentTotalCost = some 0 →
      (updateTotalCosts r s).mcpAgentTotalCost = s.mcpAgentTotalCost) ∧
    (r.aiderTotalCost = none ∨ r.aiderTotalCost = some 0 →
      (updateTotalCosts r s).aiderTotalCost = s.aiderTotalCost) := by
  rcases s with ⟨m, a⟩
  rcases r with ⟨st, rt, mc, om, oa⟩
  constructor
  · rintro (h | h) <;> subst h <;>
      rcases oa with _ | va <;>
      simp only [updateTotalCosts, jsNumTruthy] <;>
      first
        | rfl
        | (by_cases hva : va = 0 <;> simp [hva])
  · rintro (h | h) <;> subst h <;>
      rcases om with _ | vm <;>
      simp only [updateTotalCosts, jsNumTruthy] <;>
      first
        | rfl
        | (by_cases hvm : vm = 0 <;> simp [hvm])

/-- Witness for C10: a report with agent total `0` and aider total `5` leaves a
previously recorded agent total `7` untouched. -/
theorem zero_or_absent_total_preserved_witness :
    (updateTotalCosts ⟨0, 0, 0, some 0, some 5⟩ ⟨7, 9⟩).mcpAgentTotalCost = 7 :=
  (zero_or_absent_total_preserved ⟨0, 0, 0, some 0, some 5⟩ ⟨7, 9⟩).1 (Or.inr rfl)

end AiderDesk

namespace AiderDesk

/-! ## File search: claim C8 -/

/-- C8. For every search pattern string given to `getAddableFiles`, a
syntactically invalid regular expression never causes the call to throw: the
filter is skipped and the full unfiltered addable-file list (tracked files
minus context files) is returned. -/
theorem invalid_regex_returns_unfiltered (allTrackedFiles contextFilePaths : List String)
    (pattern : String) (compileRegex : String → Option (String → Bool))
    (hbad : compileRegex pattern = none) :
    getAddableFiles allTrackedFiles contextFilePaths (some pattern) compileRegex =
      allTrackedFiles.filter (fun file => !(contextFilePaths.contains file)) := by
  simp only [getAddableFiles, hbad]
  split <;> rfl

/-- Witness for C8 at a concrete input: an uncompilable pattern yields the full
tracked-minus-context list. -/
theorem invalid_regex_returns_unfiltered_witness :
    getAddableFiles ["a.ts", "b.ts", "c.ts"] ["b.ts"] (some "[") (fun _ => none) =
      ["a.ts", "c.ts"] :=
  (invalid_regex_returns_unfiltered ["a.ts", "b.ts", "c.ts"] ["b.ts"] "[" (fun _ => none)
    rfl).trans (by decide)

/-! ## Question protocol: claims C9, C7 and C2 -/

/-- C9 (implicit). For every call to `answerQuestion` with any raw answer
string while a question is open, the current question is cleared
unconditionally — after the call no question is open — regardless of how the
raw answer normalizes and regardless of whether a waiter was resolved. -/
theorem answer_question_always_clears (answer : String) (userInput : Option String)
    (s : QuestionState) (h : s.currentQuestion.isSome) :
    ((answerQuestion answer userInput s).1).currentQuestion = none := by
  rcases s with ⟨cq, res, qa, ra⟩
  cases cq with
  | none => simp at h
  | some q =>
    simp only [answerQuestion]
    cases res <;> split <;> simp

/-- Witness for C9: answering `"whatever"` (which normalizes to `'n'`, resolving
no waiter) still clears the open question. -/
theorem answer_question_always_clears_witness :
    ((answerQuestion "whatever" none
        ⟨some ⟨none, "Run tests?", none, false⟩, none, [], []⟩).1).currentQuestion = none :=
  answer_question_always_clears "whatever" none
    ⟨some ⟨none, "Run tests?", none, false⟩, none, [], []⟩ (by decide)

/-- C7. For every `askQuestion` call whose question identity (explicit key,
else the text/subject pair) has a remembered answer and whose question is not
flagged internal, the call routes the remembered answer to the answer-question
connectors, returns an already-resolved promise of `[storedAnswer, undefined]`
within the same call stack (no suspension), and never emits an ask-question UI
event. -/
theorem remembered_answer_short_circuits (callId : Nat) (q : QuestionData)
    (s : QuestionState) (a : Bool)
    (hstored : s.questionAnswers.lookup (getQuestionKey q) = some a)
    (hext : q.internal = false) :
    (askQuestion callId q s).2.1 = AskOutcome.immediate a ∧
    (askQuestion callId q s).2.2 = [QuestionEvent.routeAnswer a] := by
  rcases s with ⟨cq, res, qa, ra⟩
  have hy : (jsToLower "y" == "a" || jsToLower "y" == "y") = true := by decide
  have hn : (jsToLower "n" == "a" || jsToLower "n" == "y") = false := by decide
  have hyP : ¬(jsToLower "y" = "d" ∨ jsToLower "y" = "a") := by decide
  have hnP : ¬(jsToLower "n" = "d" ∨ jsToLower "n" = "a") := by decide
  cases a <;> cases res <;>
    simp [askQuestion, answerQuestion, hstored, hext, hy, hn, hyP, hnP]

/-- Witness for C7: a remembered affirmative answer for key `"Apply?_file"` is
routed immediately, with no ask-question UI event. -/
theorem remembered_answer_short_circuits_witness :
    ((⟨none, none, [("Apply?_file", true)], []⟩ : QuestionState).questionAnswers.lookup
        (getQuestionKey ⟨none, "Apply?", some "file", false⟩) = some true) ∧
    (askQuestion 5 ⟨none, "Apply?", some "file", false⟩
        ⟨none, none, [("Apply?_file", true)], []⟩).2.1 = AskOutcome.immediate true ∧
    (askQuestion 5 ⟨none, "Apply?", some "file", false⟩
        ⟨none, none, [("Apply?_file", true)], []⟩).2.2 = [QuestionEvent.routeAnswer true] :=
  ⟨by decide,
    (remembered_answer_short_circuits 5 ⟨none, "Apply?", some "file", false⟩
      ⟨none, none, [("Apply?_file", true)], []⟩ true (by decide) rfl).1,
    (remembered_answer_short_circuits 5 ⟨none, "Apply?", some "file", false⟩
      ⟨none, none, [("Apply?_file", true)], []⟩ true (by decide) rfl).2⟩

/-- Counterexample to C2 as stated: with question `"q1"` pending (its caller's
resolver stored under call id 1), `askQuestion` for `"q2"` succeeds immediately
— it replaces the current question, stores call 2's resolver (discarding call
1's, which is never recorded as resolved), and suspends caller 2; so a new
question *was* asked while one was pending and the pending waiter *was*
discarded. -/
theorem ask_while_pending_counterexample :
    ((askQuestion 1 ⟨none, "q1", none, false⟩ ⟨none, none, [], []⟩).1.currentQuestionPromiseResolve
      = some 1) ∧
    ((askQuestion 2 ⟨none, "q2", none, false⟩
        (askQuestion 1 ⟨none, "q1", none, false⟩ ⟨none, none, [], []⟩).1).1.currentQuestion
      = some ⟨none, "q2", none, false⟩) ∧
    ((askQuestion 2 ⟨none, "q2", none, false⟩
        (askQuestion 1 ⟨none, "q1", none, false⟩ ⟨none, none, [], []⟩).1).1.currentQuestionPromiseResolve
      = some 2) ∧
    ((askQuestion 2 ⟨none, "q2", none, false⟩
        (askQuestion 1 ⟨none, "q1", none, false⟩ ⟨none, none, [], []⟩).1).1.resolvedAnswers
      = []) ∧
    ((askQuestion 2 ⟨none, "q2", none, false⟩
        (askQuestion 1 ⟨none, "q1", none, false⟩ ⟨none, none, [], []⟩).1).2.1
      = AskOutcome.pending) := by
  decide

/-- C2 as amended: at most one question is open at a time only because the
question slot is a single field; `askQuestion` while a question is pending does
*not* refuse — it unconditionally replaces the current question, and when the
new question has no remembered answer it overwrites the stored resolver with
the new caller's (the previously pending waiter is discarded, never resolved). -/
theorem ask_question_overwrites_pending (callId : Nat) (q : QuestionData)
    (s : QuestionState)
    (hnew : s.questionAnswers.lookup (getQuestionKey q) = none) :
    (askQuestion callId q s).1.currentQuestion = some q ∧
    (askQuestion callId q s).1.currentQuestionPromiseResolve = some callId ∧
    (askQuestion callId q s).1.resolvedAnswers = s.resolvedAnswers ∧
    (askQuestion callId q s).2.1 = AskOutcome.pending := by
  simp [askQuestion, hnew]

/-- Witness for the amended C2: asking `"q2"` while `"q1"` is pending (resolver
of call 1 stored) replaces the question and the resolver without resolving
call 1. -/
theorem ask_question_overwrites_pending_witness :
    ((⟨some ⟨none, "q1", none, false⟩, some 1, [], []⟩ : QuestionState).questionAnswers.lookup
        (getQuestionKey ⟨none, "q2", none, false⟩) = none) ∧
    (askQuestion 2 ⟨none, "q2", none, false⟩
        ⟨some ⟨none, "q1", none, false⟩, some 1, [], []⟩).1.currentQuestion
      = some ⟨none, "q2", none, false⟩ ∧
    (askQuestion 2 ⟨none, "q2", none, false⟩
        ⟨some ⟨none, "q1", none, false⟩, some 1, [], []⟩).1.currentQuestionPromiseResolve
      = some 2 :=
  ⟨by decide,
    (ask_question_overwrites_pending 2 ⟨none, "q2", none, false⟩
      ⟨some ⟨none, "q1", none, false⟩, some 1, [], []⟩ (by decide)).1,
    (ask_question_overwrites_pending 2 ⟨none, "q2", none, false⟩
      ⟨some ⟨none, "q1", none, false⟩, some 1, [], []⟩ (by decide)).2.1⟩

end AiderDesk

namespace AiderDesk

/-! ## Stopping the worker: claim C3 -/

/-- Counterexample to C3 as stated: the claim includes "process death during an
active unit" among the events that resolve all pending prompt waiters, but the
process `'close'` handler only logs — at a state with an active prompt (id `5`)
and a pending waiter (`3`), process death resolves nothing and leaves the
waiter stored. -/
theorem process_death_resolves_nothing_counterexample :
    onProcessExit ⟨true, none, none, none, some 5, [], [3]⟩ =
      (⟨true, none, none, none, some 5, [], [3]⟩, []) ∧
    (⟨true, none, none, none, some 5, [], [3]⟩ : StopState).runPromptResolves = [3] :=
  ⟨rfl, rfl⟩

/-- C3 as amended: `killAider` (also reached via `close`) resolves every
pending prompt waiter with an empty result list and clears the current
question, current command, current response-message id, current prompt id and
buffered responses; but spontaneous process death alone triggers none of this —
the `'close'` handler only logs, so waiters resolved on death only happen
through a subsequent explicit kill/close/restart. -/
theorem kill_aider_resolves_and_clears (s : StopState) (h : s.processAlive = true) :
    (killAider s).2 = s.runPromptResolves.map (fun w => (w, ([] : List Nat))) ∧
    (killAider s).1.currentQuestion = none ∧
    (killAider s).1.currentCommand = none ∧
    (killAider s).1.currentResponseMessageId = none ∧
    (killAider s).1.currentPromptId = none ∧
    (killAider s).1.currentPromptResponses = [] ∧
    (killAider s).1.runPromptResolves = [] ∧
    closeProject s = killAider s := by
  simp [killAider, closeProject, h]

/-- Witness for the amended C3: killing with two pending waiters resolves both
with `[]` and clears the per-run state. -/
theorem kill_aider_resolves_and_clears_witness :
    (killAider ⟨true, some "diff", some ⟨none, "Run?", none, false⟩, some 9, some 5, [7], [1, 2]⟩).2
      = [(1, []), (2, [])] ∧
    (killAider ⟨true, some "diff", some ⟨none, "Run?", none, false⟩, some 9, some 5, [7], [1, 2]⟩).1.currentPromptId
      = none :=
  ⟨((kill_aider_resolves_and_clears
      ⟨true, some "diff", some ⟨none, "Run?", none, false⟩, some 9, some 5, [7], [1, 2]⟩
      rfl).1).trans (by decide),
    (kill_aider_resolves_and_clears
      ⟨true, some "diff", some ⟨none, "Run?", none, false⟩, some 9, some 5, [7], [1, 2]⟩
      rfl).2.2.2.2.1⟩

/-! ## Prompt scheduling: claim C1 -/

/-- C1: the single-flight claim fails on the code.  In the modelled run, caller
0 is active when callers 1 and 2 queue behind it; the worker's single
`promptFinished` drains the whole resolver list, waking both queued callers,
and neither re-checks `currentPromptId` when it resumes — so prompt commands
for units 1 and 2 are routed back to back with no `promptFinished` between
them, interleaving two prompts at the worker.  (Evaluation of the embedded
state machine at the failing schedule.) -/
theorem concurrent_prompts_interleave_at_worker :
    (runSched overlapSchedule initThreeCallers).map (fun r => r.2) =
      some [SchedEvent.routePrompt 0, SchedEvent.promptFinishedSignal,
        SchedEvent.routePrompt 1, SchedEvent.routePrompt 2] ∧
    (runSched overlapSchedule initThreeCallers).map (fun r => singleFlight r.2) =
      some false := by
  decide

end AiderDesk

namespace AiderDesk

/-! ## Finished-response commit message: claim C6 -/

/-- C6. For every finished response message that carries both a (non-empty)
commit message and a usage report, the forwarded commit message equals the
original commit text followed by the suffix `i<sentK>k o<receivedK>k $<cost>`,
where the sent and received token counts are in thousands with one decimal and
the cost has three decimals. -/
theorem finished_commit_message_gets_cost_suffix (fresh : Nat)
    (message : ResponseMessage) (s : RespState) (c : String) (u : UsageReportData)
    (hfin : message.finished = true) (hc : message.commitMessage = some c)
    (hne : c ≠ "") (hu : message.usageReport = some u) :
    ((processResponseMessage fresh message s).2).commitMessageOf =
      some (c ++ specCostSuffix u) := by
  simp only [processResponseMessage, hfin, hc, hne, hu, Bool.true_eq_false, if_false,
    RespOutcome.commitMessageOf, specCostSuffix, if_neg hne]
  simp [String.append_assoc]

/-- Witness for C6, the spec's example: `sentTokens 2000`, `receivedTokens
500`, `messageCost 0.012` on commit text `"fix"` yields
`"fix i2.0k o0.5k $0.012"`. -/
theorem finished_commit_message_gets_cost_suffix_witness :
    (0.012 : ℚ) = (⟨3, 250, by decide, by decide⟩ : ℚ) ∧
    ((processResponseMessage 0
        ⟨some 1, "done", none, true, none, none, some "fix", none,
          some ⟨2000, 500, ⟨3, 250, by decide, by decide⟩, none, none⟩⟩
        ⟨none, ⟨0, 0⟩, []⟩).2).commitMessageOf = some "fix i2.0k o0.5k $0.012" := by
  constructor
  · rw [Rat.mk'_eq_divInt]
    norm_num [Rat.divInt_eq_div]
  · have h := finished_commit_message_gets_cost_suffix 0
      ⟨some 1, "done", none, true, none, none, some "fix", none,
        some ⟨2000, 500, ⟨3, 250, by decide, by decide⟩, none, none⟩⟩
      ⟨none, ⟨0, 0⟩, []⟩ "fix"
      ⟨2000, 500, ⟨3, 250, by decide, by decide⟩, none, none⟩
      rfl rfl (by decide) rfl
    rw [h]
    have e1 : ((2000 : ℚ) / 1000) = 2 := by norm_num
    have e2 : ((500 : ℚ) / 1000) = (⟨1, 2, by decide, by decide⟩ : ℚ) := by
      rw [Rat.mk'_eq_divInt]
      norm_num [Rat.divInt_eq_div]
    simp only [specCostSuffix, e1, e2]
    decide

end AiderDesk

namespace AiderDesk

/-! ## Input history: claim C4 -/

theorem jsSplitNl_ne_nil (s : Str) : jsSplitNl s ≠ [] := by
  induction s with
  | nil => simp [jsSplitNl]
  | cons c cs ih =>
    simp only [jsSplitNl]
    split
    · simp
    · cases h : jsSplitNl cs with
      | nil => exact absurd h ih
      | cons l ls => simp [consHead]

/-- Splitting `xs ++ '\n' :: ys` when `xs` is newline-free peels off `xs` as
the first line. -/
theorem jsSplitNl_append_nlfree (xs ys : Str) (h : '\n' ∉ xs) :
    jsSplitNl (xs ++ '\n' :: ys) = xs :: jsSplitNl ys := by
  induction xs with
  | nil => simp [jsSplitNl]
  | cons c cs ih =>
    have hc : ¬(c = '\n') := fun e => h (e ▸ List.mem_cons_self c cs)
    have hcs : '\n' ∉ cs := fun m => h (List.mem_cons_of_mem _ m)
    simp [jsSplitNl, hc, ih hcs, consHead]

theorem jsSplitNl_cons_nl (cs : Str) : jsSplitNl ('\n' :: cs) = [] :: jsSplitNl cs := by
  simp [jsSplitNl]

theorem jsSplitNl_cons_other (c : Char) (cs : Str) (hc : c ≠ '\n') :
    jsSplitNl (c :: cs) = consHead c (jsSplitNl cs) := by
  simp [jsSplitNl, hc]

/-- Splitting the `"+"`-escaped body of a message followed by `'\n'` and the
rest of the file: the message's lines reappear, all but the first gaining the
`'+'` prefix inserted by `jsReplaceNl`, followed by the lines of the rest. -/
theorem jsSplitNl_replaceNl (m : Str) :
    ∀ (rest : Str) (l : Str) (ls : List Str), jsSplitNl m = l :: ls →
      jsSplitNl (jsReplaceNl m ++ '\n' :: rest) =
        l :: (ls.map (fun x => '+' :: x) ++ jsSplitNl rest) := by
  induction m with
  | nil =>
    intro rest l ls h
    simp only [jsSplitNl] at h
    cases h
    simp [jsReplaceNl, jsSplitNl]
  | cons c m' ih =>
    intro rest l ls h
    obtain ⟨l', ls', h'⟩ := List.exists_cons_of_ne_nil (jsSplitNl_ne_nil m')
    have hplus : ('+' : Char) ≠ '\n' := by decide
    by_cases hc : c = '\n'
    · subst hc
      rw [jsSplitNl_cons_nl, h'] at h
      cases h
      rw [show jsReplaceNl ('\n' :: m') = '\n' :: '+' :: jsReplaceNl m' from by
        simp [jsReplaceNl]]
      rw [List.cons_append, List.cons_append, jsSplitNl_cons_nl,
        jsSplitNl_cons_other _ _ hplus, ih rest l' ls' h']
      simp [consHead]
    · rw [jsSplitNl_cons_other c m' hc, h'] at h
      simp only [consHead] at h
      cases h
      rw [show jsReplaceNl (c :: m') = c :: jsReplaceNl m' from by simp [jsReplaceNl, hc]]
      rw [List.cons_append, jsSplitNl_cons_other c _ hc, ih rest l' ls h']
      simp [consHead]

/-- Splitting a full `"+"`-prefixed entry body: every message line appears with
the `'+'` prefix. -/
theorem jsSplitNl_plusBlock (m rest : Str) :
    jsSplitNl ('+' :: (jsReplaceNl m ++ '\n' :: rest)) =
      (jsSplitNl m).map (fun x => '+' :: x) ++ jsSplitNl rest := by
  obtain ⟨l, ls, h⟩ := List.exists_cons_of_ne_nil (jsSplitNl_ne_nil m)
  have hplus : ¬(('+' : Char) = '\n') := by decide
  simp only [jsSplitNl, if_neg hplus, jsSplitNl_replaceNl m rest l ls h, consHead, h,
    List.map_cons, List.cons_append]

theorem writeHistory_foldl (entries : List (Str × Str)) :
    ∀ acc : Str,
      entries.foldl (fun content e => addToInputHistory content e.1 e.2) acc =
        acc ++ entriesText entries := by
  induction entries with
  | nil => intro acc; simp [entriesText]
  | cons e es ih =>
    intro acc
    simp only [List.foldl_cons, entriesText]
    rw [show addToInputHistory acc e.1 e.2 = acc ++ formatEntry e.1 e.2 from rfl, ih,
      List.append_assoc]

/-- Lemma C: the line structure of a whole history file. -/
theorem jsSplitNl_entriesText (entries : List (Str × Str))
    (hts : ∀ e ∈ entries, '\n' ∉ e.1) :
    jsSplitNl (entriesText entries) =
      entries.flatMap (fun e => entryLines e.1 e.2) ++ [[]] := by
  induction entries with
  | nil => simp [entriesText, jsSplitNl]
  | cons e es ih =>
    have hhead : '\n' ∉ ('#' :: ' ' :: e.1) := by
      intro hmem
      simp only [List.mem_cons] at hmem
      rcases hmem with h1 | h1 | h1
      · exact absurd h1 (by decide)
      · exact absurd h1 (by decide)
      · exact (hts e (List.mem_cons_self e es)) h1
    have hrest : ∀ x ∈ es, '\n' ∉ x.1 := fun x hx => hts x (List.mem_cons_of_mem _ hx)
    have hshape : entriesText (e :: es) =
        '\n' :: (('#' :: ' ' :: e.1) ++ '\n' :: ('+' :: (jsReplaceNl e.2 ++ '\n' :: entriesText es))) := by
      simp [entriesText, formatEntry, List.append_assoc]
    rw [hshape, jsSplitNl_cons_nl, jsSplitNl_append_nlfree _ _ hhead, jsSplitNl_plusBlock,
      ih hrest]
    simp [entryLines, List.append_assoc]

theorem parseStep_nil_line (acc : List Str × Str) : parseStep acc [] = acc := rfl

theorem parseStep_header (acc : List Str × Str) (ts : Str) :
    parseStep acc ('#' :: ' ' :: ts) =
      if acc.2 ≠ [] then (acc.1 ++ [jsTrim acc.2], []) else acc := by
  simp [parseStep, List.isPrefixOf]

theorem parseStep_plus (acc : List Str × Str) (l : Str) :
    parseStep acc ('+' :: l) = (acc.1, acc.2 ++ l ++ ['\n']) := by
  simp [parseStep, List.isPrefixOf]

theorem foldl_parseStep_plusLines (lines : List Str) :
    ∀ (h : List Str) (cur : Str),
      (lines.map (fun l => '+' :: l)).foldl parseStep (h, cur) = (h, cur ++ plusBody lines) := by
  induction lines with
  | nil => intro h cur; simp [plusBody]
  | cons l ls ih =>
    intro h cur
    simp only [List.map_cons, List.foldl_cons, parseStep_plus]
    rw [ih]
    simp [plusBody, List.append_assoc]

theorem plusBody_jsSplitNl (m : Str) : plusBody (jsSplitNl m) = m ++ ['\n'] := by
  induction m with
  | nil => simp [jsSplitNl, plusBody]
  | cons c m' ih =>
    by_cases hc : c = '\n'
    · subst hc
      simp only [jsSplitNl, if_pos rfl, plusBody]
      rw [ih]
      simp
    · obtain ⟨l, ls, h⟩ := List.exists_cons_of_ne_nil (jsSplitNl_ne_nil m')
      simp only [jsSplitNl, if_neg hc, h, consHead, plusBody]
      rw [h, plusBody] at ih
      simp [ih]

/-- Processing one entry's lines: the pending input is flushed (trimmed) by the
header, and the entry leaves its own message (plus a trailing newline) pending. -/
theorem foldl_parseStep_entry (t m : Str) (h : List Str) (cur : Str) :
    (entryLines t m).foldl parseStep (h, cur) = (finishParse (h, cur), m ++ ['\n']) := by
  simp only [entryLines, List.foldl_cons, parseStep_nil_line, parseStep_header]
  by_cases hcur : cur = []
  · subst hcur
    simp only [ne_eq, not_true_eq_false, if_false]
    rw [foldl_parseStep_plusLines, plusBody_jsSplitNl, finishParse]
    simp
  · simp only [ne_eq, hcur, not_false_eq_true, if_true]
    rw [foldl_parseStep_plusLines, plusBody_jsSplitNl, finishParse]
    simp [hcur]

/-- Running the parser over all entry lines and flushing: each entry
contributes its message, trimmed (the trailing `'\n'` the parser adds is
removed by the trim). -/
theorem foldl_parseStep_entries (entries : List (Str × Str)) :
    ∀ (h : List Str) (cur : Str),
      finishParse ((entries.flatMap (fun e => entryLines e.1 e.2)).foldl parseStep (h, cur)) =
        finishParse (h, cur) ++ entries.map (fun e => jsTrim (e.2 ++ ['\n'])) := by
  induction entries with
  | nil => intro h cur; simp
  | cons e es ih =>
    intro h cur
    simp only [List.flatMap_cons, List.foldl_append, foldl_parseStep_entry]
    rw [ih]
    have hne : e.2 ++ ['\n'] ≠ [] := by simp
    simp [finishParse, hne]

end AiderDesk

namespace AiderDesk

/-- Trimming absorbs the trailing newline the parser appends to each
reconstructed entry. -/
theorem jsTrim_append_nl (m : Str) : jsTrim (m ++ ['\n']) = jsTrim m := by
  unfold jsTrim
  rw [List.dropWhile_append]
  by_cases h : (m.dropWhile isWsChar).isEmpty = true
  · rw [if_pos h]
    have h2 : List.dropWhile isWsChar ['\n'] = [] := by decide
    have h3 : m.dropWhile isWsChar = [] := List.isEmpty_iff.mp h
    rw [h2, h3]
  · rw [if_neg h]
    rw [List.reverse_append]
    simp only [List.reverse_cons, List.reverse_nil, List.nil_append, List.singleton_append]
    rw [List.dropWhile_cons]
    simp [show isWsChar '\n' = true from by decide]

/-- Counterexample to C4 as stated: the single prompt `" a"` (leading space)
does not round-trip — `loadInputHistory` trims each reconstructed entry, so the
returned prompt is `"a"`, not `" a"`. -/
theorem history_roundtrip_counterexample :
    loadInputHistory (writeHistory [("2025-01-01T00:00:00.000Z".data, " a".data)]) =
      ["a".data] ∧
    ("a".data : Str) ≠ " a".data := by
  constructor
  · decide
  · decide

/-- C4 as amended: writing `N` prompts via `addToInputHistory` (timestamps are
newline-free, as ISO-8601 timestamps are) and then loading returns exactly `N`
prompts, most-recent-first, each equal to the *trimmed* original (interior
newlines preserved; leading and trailing whitespace of the whole prompt is
stripped by the loader); in particular the round-trip is exact whenever no
prompt starts or ends with whitespace. -/
theorem history_roundtrip_trimmed (entries : List (Str × Str))
    (hts : ∀ e ∈ entries, '\n' ∉ e.1) :
    loadInputHistory (writeHistory entries) = (entries.map (fun e => jsTrim e.2)).reverse ∧
    ((∀ e ∈ entries, jsTrim e.2 = e.2) →
      loadInputHistory (writeHistory entries) = (entries.map (fun e => e.2)).reverse) := by
  have main : loadInputHistory (writeHistory entries) =
      (entries.map (fun e => jsTrim e.2)).reverse := by
    cases entries with
    | nil => simp [writeHistory, loadInputHistory]
    | cons e es =>
      have hw : writeHistory (e :: es) = entriesText (e :: es) := by
        rw [writeHistory, writeHistory_foldl]
        simp
      have hne : entriesText (e :: es) ≠ [] := by
        simp [entriesText, formatEntry]
      rw [hw, loadInputHistory, if_neg hne, jsSplitNl_entriesText _ hts, List.foldl_append]
      simp only [List.foldl_cons, List.foldl_nil, parseStep_nil_line]
      rw [foldl_parseStep_entries]
      simp [finishParse, jsTrim_append_nl]
  refine ⟨main, fun htrim => ?_⟩
  rw [main]
  congr 1
  exact List.map_congr_left htrim

/-- Witness for the amended C4: a multi-line prompt with no outer whitespace
round-trips exactly, newline included. -/
theorem history_roundtrip_trimmed_witness :
    (∀ e ∈ [(("2025-01-01T00:00:00.000Z".data : Str), ("a\nb".data : Str))], '\n' ∉ e.1) ∧
    loadInputHistory (writeHistory [("2025-01-01T00:00:00.000Z".data, "a\nb".data)]) =
      ["a\nb".data] :=
  ⟨by decide,
    ((history_roundtrip_trimmed [("2025-01-01T00:00:00.000Z".data, "a\nb".data)]
        (by decide)).2 (by decide)).trans (by decide)⟩

end AiderDesk
